import Mathlib

/-!
Shallow embedding of the portfolio price-caching and refresh pipeline of the
stock-profit-calculator repository.

Numbers are modelled as rationals (the source uses JS numbers; the claims are
about the exact arithmetic relations the code writes down).  JS `number | null`
becomes `Option ℚ`.  Timestamps (`updatedAt` ISO strings, which the source
compares only through SQL ordering) are modelled as natural numbers.
-/

namespace StockProfit

/-- JS truthiness of a `number | null` value: `null`, `0` (and `NaN`, which has
no rational counterpart) are falsy.  Used where the source tests a price with
`cachedPrice ? … : null` instead of `!== null`. -/
def jsTruthy : Option ℚ → Bool
  | none => false
  | some x => x != 0

/-- `isFundCode` from the source (identical copies in every route file):
`/^\d{6}$/.test(code)` — a code is a fund code iff it is exactly six digits. -/
def isFundCode (code : String) : Bool :=
  code.length == 6 && code.toList.all Char.isDigit

/-- `Position` row of the `positions` table (src/lib/db.ts).  `createdAt` is
irrelevant to the claims and omitted; `updatedAt` is the last-touched
timestamp. -/
structure Position where
  id : String
  stockCode : String
  stockName : String
  costPrice : ℚ
  shares : ℚ
  updatedAt : Nat
  deriving Repr, DecidableEq

/-- `PositionWithPrice` (src/lib/db.ts): a position row joined with its
(optional) cached price. -/
structure PositionWithPrice where
  id : String
  stockCode : String
  stockName : String
  costPrice : ℚ
  shares : ℚ
  cachedPrice : Option ℚ
  deriving Repr, DecidableEq

/-- `PortfolioItem` (src/app/api/portfolio/route.ts and duplicates). -/
structure PortfolioItem where
  id : String
  code : String
  name : String
  assetType : String
  costPrice : ℚ
  shares : ℚ
  currentPrice : Option ℚ
  totalCost : ℚ
  marketValue : Option ℚ
  profit : Option ℚ
  profitPercent : Option ℚ
  deriving Repr, DecidableEq

/-- `PortfolioSummary` (src/app/api/portfolio/route.ts and duplicates). -/
structure PortfolioSummary where
  totalCost : ℚ
  totalMarketValue : ℚ
  totalProfit : ℚ
  totalProfitPercent : ℚ
  deriving Repr, DecidableEq

/-- Per-position item computation of `updatePortfolioCache`
(src/app/api/position/route.ts lines 31-51, identical in
src/app/api/cron/update-prices/route.ts lines 188-208):

  const currentPrice = position.cachedPrice;
  const totalCost = position.costPrice * position.shares;
  const marketValue = currentPrice !== null ? currentPrice * position.shares : null;
  const profit = marketValue !== null ? marketValue - totalCost : null;
  const profitPercent = profit !== null && totalCost > 0 ? (profit / totalCost) * 100 : null;
-/
def cacheItem (position : PositionWithPrice) : PortfolioItem :=
  let currentPrice := position.cachedPrice
  let totalCost := position.costPrice * position.shares
  let marketValue := match currentPrice with
    | some p => some (p * position.shares)
    | none => none
  let profit := match marketValue with
    | some mv => some (mv - totalCost)
    | none => none
  let profitPercent := match profit with
    | some pr => if 0 < totalCost then some (pr / totalCost * 100) else none
    | none => none
  { id := position.id
    code := position.stockCode
    name := position.stockName
    assetType := if isFundCode position.stockCode then "fund" else "stock"
    costPrice := position.costPrice
    shares := position.shares
    currentPrice := currentPrice
    totalCost := totalCost
    marketValue := marketValue
    profit := profit
    profitPercent := profitPercent }

/-- Per-position item computation of the quick-mode branch of the portfolio
route (src/app/api/portfolio/route.ts lines 102-123).  `cached` is
`cachedPrices.get(position.stockCode)?.price ?? null`.  Note the truthiness
test `cachedPrice ? cachedPrice * position.shares : null` (not `!== null`):

  const marketValue = cachedPrice ? cachedPrice * position.shares : null;
  const profit = marketValue !== null ? marketValue - totalCost : null;
  const profitPercent = profit !== null && totalCost > 0 ? (profit / totalCost) * 100 : null;
-/
def quickItem (position : Position) (cached : Option ℚ) : PortfolioItem :=
  let cachedPrice := cached
  let totalCost := position.costPrice * position.shares
  let marketValue := if jsTruthy cachedPrice then
      match cachedPrice with
      | some p => some (p * position.shares)
      | none => none
    else none
  let profit := match marketValue with
    | some mv => some (mv - totalCost)
    | none => none
  let profitPercent := match profit with
    | some pr => if 0 < totalCost then some (pr / totalCost * 100) else none
    | none => none
  { id := position.id
    code := position.stockCode
    name := position.stockName
    assetType := if isFundCode position.stockCode then "fund" else "stock"
    costPrice := position.costPrice
    shares := position.shares
    currentPrice := cachedPrice
    totalCost := totalCost
    marketValue := marketValue
    profit := profit
    profitPercent := profitPercent }

/-- One step of the `items.reduce` accumulator in `calculateProfitData`
(src/app/api/portfolio/route.ts lines 60-77, identical in the snapshot
computation of src/app/api/position/route.ts lines 54-71). -/
def sumStep (acc : PortfolioSummary) (item : PortfolioItem) : PortfolioSummary :=
  { acc with
    totalCost := acc.totalCost + item.totalCost
    totalMarketValue := match item.marketValue with
      | some mv => acc.totalMarketValue + mv
      | none => acc.totalMarketValue
    totalProfit := match item.profit with
      | some p => acc.totalProfit + p
      | none => acc.totalProfit }

/-- `calculateProfitData` (src/app/api/portfolio/route.ts lines 59-85):
reduce over the items starting from all-zero, then overwrite
`totalProfitPercent` only when `totalCost > 0`. -/
def calculateProfitData (items : List PortfolioItem) : PortfolioSummary :=
  let summary := items.foldl sumStep ⟨0, 0, 0, 0⟩
  if 0 < summary.totalCost then
    { summary with totalProfitPercent := summary.totalProfit / summary.totalCost * 100 }
  else summary

/-- `isStockTradingTime` (src/app/api/cron/update-prices/route.ts lines
245-263), abstracted over the Beijing wall-clock reading the source obtains
from `new Date(...toLocaleString("en-US", {timeZone:"Asia/Shanghai"}))`:
`dayOfWeek` is JS `getDay()` (0 = Sunday … 6 = Saturday), `hours`/`minutes`
are `getHours()`/`getMinutes()`. -/
def isStockTradingTime (dayOfWeek hours minutes : Nat) : Bool :=
  let totalMinutes := hours * 60 + minutes
  let isMorningSession := 570 ≤ totalMinutes && totalMinutes ≤ 690
  let isAfternoonSession := 780 ≤ totalMinutes && totalMinutes ≤ 900
  let isWeekend := dayOfWeek == 0 || dayOfWeek == 6
  !isWeekend && (isMorningSession || isAfternoonSession)

/-- `shouldUpdateFundPrice` (src/app/api/cron/update-prices/route.ts lines
266-272): the Beijing hour-of-day lies in [20, 23]. -/
def shouldUpdateFundPrice (hours : Nat) : Bool :=
  20 ≤ hours && hours ≤ 23

/-- The per-code filtering of the selection loop in the cron route's `GET`
(src/app/api/cron/update-prices/route.ts lines 345-358): type filter first
(`continue`), then `forceUpdate`, then the per-type time window. -/
def eligiblePred (forceUpdate : Bool) (typeFilter : Option String)
    (isTrading shouldUpdateFund : Bool) (code : String) : Bool :=
  let isFund := isFundCode code
  if typeFilter == some "stock" && isFund then false
  else if typeFilter == some "fund" && !isFund then false
  else if forceUpdate then true
  else if isFund && shouldUpdateFund then true
  else if !isFund && isTrading then true
  else false

/-- `codesToUpdate` as built by the selection loop of the cron route's `GET`
over `allCodes` (src/app/api/cron/update-prices/route.ts lines 341-358). -/
def selectCodesToUpdate (allCodes : List String) (forceUpdate : Bool)
    (typeFilter : Option String) (isTrading shouldUpdateFund : Bool) : List String :=
  allCodes.filter (eligiblePred forceUpdate typeFilter isTrading shouldUpdateFund)

/-- The fan-out `Promise.all(codesToUpdate.map(async (code) => {...}))`
(src/app/api/cron/update-prices/route.ts lines 375-380): one fetch per code
in `codesToUpdate`, each producing `{code, price}` where a caught adapter
exception or missing price is `price = null` (`fetchAssetPriceAndName`,
lines 280-299). -/
def fetchResults (codesToUpdate : List String) (fetchPrice : String → Option ℚ) :
    List (String × Option ℚ) :=
  codesToUpdate.map (fun code => (code, fetchPrice code))

/-- The `validPrices` map (src/app/api/cron/update-prices/route.ts lines
385-396): the results whose price is a non-null number, keyed by code.  The
source stores them in a `Map`; since the key list is built from distinct
codes, the association list of successful pairs is the same mapping. -/
def validPricesOf (results : List (String × Option ℚ)) : List (String × ℚ) :=
  results.filterMap (fun r => r.2.map (fun p => (r.1, p)))

/-- `updateBatchCachedPrices` (src/lib/db.ts lines 251-271): iterate the map
and upsert each (code, price) row of `price_cache`.  The cache is modelled as
the lookup function of the `price_cache` table. -/
def updateBatchCachedPrices (cache : String → Option ℚ) (prices : List (String × ℚ)) :
    String → Option ℚ :=
  prices.foldl (fun acc kv => fun c => if c = kv.1 then some kv.2 else acc c) cache

/-- Shape of the cron route's JSON response, restricted to the fields the
claims are about.  In the source the "nothing to do" responses carry no
`failed` field at all (src/app/api/cron/update-prices/route.ts lines 332-338
and 362-370), while the response of a run with eligible codes always carries
one (lines 414-422); `failed : Option Nat` records that presence. -/
structure CronResponse where
  success : Bool
  message : String
  updated : Nat
  failed : Option Nat
  deriving Repr, DecidableEq

/-- The cron route's `GET` (src/app/api/cron/update-prices/route.ts lines
304-431), abstracted over the wall clock (`isTrading`, `shouldUpdateFund`)
and over the adapter outcome per code (`fetchPrice`, already incorporating
the per-code exception handling of `fetchAssetPriceAndName`).  The secondary
name-update effect and the snapshot recomputation do not touch the returned
counts and are modelled separately. -/
def cronGet (allCodes : List String) (forceUpdate : Bool) (typeFilter : Option String)
    (isTrading shouldUpdateFund : Bool) (fetchPrice : String → Option ℚ) : CronResponse :=
  if allCodes.isEmpty then
    { success := true, message := "没有持仓需要更新", updated := 0, failed := none }
  else
    let codesToUpdate := selectCodesToUpdate allCodes forceUpdate typeFilter isTrading shouldUpdateFund
    if codesToUpdate.isEmpty then
      { success := true, message := "当前时间无需更新价格", updated := 0, failed := none }
    else
      let validPrices := validPricesOf (fetchResults codesToUpdate fetchPrice)
      let updatedCount := (validPrices.map Prod.fst).dedup.length
      { success := true
        message := "成功更新 " ++ toString updatedCount ++ " 个价格"
        updated := updatedCount
        failed := some (codesToUpdate.length - updatedCount) }

/-- The durable-cache effect of one cron refresh cycle
(src/app/api/cron/update-prices/route.ts lines 375-407): fetch every code of
`codesToUpdate` once, keep the successes, and batch-upsert them into
`price_cache`.  (The `validPrices.size > 0` guard in the source only skips an
empty batch, which is a no-op.) -/
def refreshCacheEffect (codesToUpdate : List String) (fetchPrice : String → Option ℚ)
    (cache : String → Option ℚ) : String → Option ℚ :=
  updateBatchCachedPrices cache (validPricesOf (fetchResults codesToUpdate fetchPrice))

/-- Body of a position-save request as read by the position route's `POST`
(src/app/api/position/route.ts line 105).  `stockCode`/`stockName` may be
missing; `costPrice`/`shares` are taken as given numbers. -/
structure PositionSaveBody where
  stockCode : Option String
  stockName : Option String
  costPrice : ℚ
  shares : ℚ
  deriving Repr, DecidableEq

/-- JS falsiness of an optional string: missing (`undefined`/`null`) or the
empty string.  This is the `!stockCode || !stockName` test of the position
route's `POST`. -/
def jsFalsyStr : Option String → Bool
  | none => true
  | some s => s == ""

/-- `upsertPosition` (src/lib/db.ts lines 88-131) restricted to the fields the
claims need: if a row with the same `stockCode` exists it is overwritten
(name, cost, shares, `updatedAt := now`), otherwise a new row is appended. -/
def upsertPosition (store : List Position) (body : PositionSaveBody) (now : Nat)
    (newId : String) : List Position :=
  let code := body.stockCode.getD ""
  let name := body.stockName.getD ""
  if store.any (fun r => r.stockCode == code) then
    store.map (fun r =>
      if r.stockCode == code then
        { r with stockName := name, costPrice := body.costPrice,
                 shares := body.shares, updatedAt := now }
      else r)
  else
    store ++ [{ id := newId, stockCode := code, stockName := name,
                costPrice := body.costPrice, shares := body.shares, updatedAt := now }]

/-- The position route's `POST` (src/app/api/position/route.ts lines 102-143):
reject with status 400 iff `!stockCode || !stockName`; otherwise upsert the
position.  Returns (HTTP status, resulting position store). -/
def postPosition (store : List Position) (body : PositionSaveBody) (now : Nat)
    (newId : String) : Nat × List Position :=
  if jsFalsyStr body.stockCode || jsFalsyStr body.stockName then
    (400, store)
  else
    (200, upsertPosition store body now newId)

/-- `PortfolioResponse` / the serialized snapshot value
(src/app/api/portfolio/route.ts lines 52-56). -/
structure PortfolioResponse where
  items : List PortfolioItem
  summary : PortfolioSummary
  hasPrices : Bool
  deriving Repr, DecidableEq

/-- The empty-but-valid snapshot the cached-portfolio route synthesizes when
the cache slot is empty (src/unnamed/part_002 lines 20-32). -/
def emptyPortfolioData : PortfolioResponse :=
  { items := [], summary := ⟨0, 0, 0, 0⟩, hasPrices := false }

/-- Result of the cached-portfolio `GET` (src/unnamed/part_002), restricted to
the fields the claim is about. -/
structure CachedPortfolioResult where
  success : Bool
  data : PortfolioResponse
  cachedAt : Option Nat
  deriving Repr, DecidableEq

/-- The cached-portfolio route's `GET` (src/unnamed/part_002 lines 6-41) over
the snapshot-cache slot as returned by `getPortfolioCache` (src/lib/db.ts
lines 337-350): `none` when the `portfolio_cache` table has no `'main'` row. -/
def portfolioCacheGet (cache : Option (PortfolioResponse × Nat)) : CachedPortfolioResult :=
  match cache with
  | some (d, t) => { success := true, data := d, cachedAt := some t }
  | none => { success := true, data := emptyPortfolioData, cachedAt := none }

/-- `getBatchCachedPricesFromDb` (src/lib/db.ts lines 206-227): the rows of
`price_cache` whose code is in `codes` (`WHERE code IN (...)`), keyed by code.
The table is modelled by its lookup function `priceDb`. -/
def getBatchCachedPricesFromDb (priceDb : String → Option ℚ) (codes : List String) :
    List (String × ℚ) :=
  codes.filterMap (fun c => (priceDb c).map (fun p => (c, p)))

/-- Entry of the ephemeral in-memory price cache
(src/lib/services/price-cache.ts lines 3-6). -/
structure MemCachedPrice where
  price : ℚ
  timestamp : Int
  deriving Repr, DecidableEq

/-- `CACHE_TTL` (src/lib/services/price-cache.ts line 12): 30 seconds in
milliseconds. -/
def CACHE_TTL : Int := 30 * 1000

/-- `getCachedPrice` of the in-memory tier (src/lib/services/price-cache.ts
lines 19-29): `null` when absent or expired (`now - timestamp > CACHE_TTL`).
The eager deletion of the expired entry is a side effect that does not change
any lookup result and is not modelled. -/
def getCachedPrice (mem : String → Option MemCachedPrice) (now : Int)
    (code : String) : Option ℚ :=
  match mem code with
  | none => none
  | some cached => if CACHE_TTL < now - cached.timestamp then none else some cached.price

/-- `getBatchCachedPrices` of the in-memory tier
(src/lib/services/price-cache.ts lines 47-53): `result.set(code,
getCachedPrice(code))` for every requested code — including a `null` value
for codes with no (unexpired) entry. -/
def getBatchCachedPrices (mem : String → Option MemCachedPrice) (now : Int)
    (codes : List String) : List (String × Option ℚ) :=
  codes.map (fun c => (c, getCachedPrice mem now c))

/-- `getAllPositions` (src/lib/db.ts lines 71-85): `SELECT * FROM positions
ORDER BY updatedAt DESC`.  Modelled as sorting the table rows by descending
`updatedAt`. -/
def getAllPositions (table : List Position) : List Position :=
  List.insertionSort (fun a b => b.updatedAt ≤ a.updatedAt) table

/-- `getAllPositionsWithPrices` (src/lib/db.ts lines 291-314): `SELECT ...
FROM positions p LEFT JOIN price_cache c ON p.stockCode = c.code` — one output
row per position row, carrying its optional cached price.  The query has no
ORDER BY clause, so the rows come back in table order, unsorted. -/
def getAllPositionsWithPrices (table : List Position) (priceDb : String → Option ℚ) :
    List PositionWithPrice :=
  table.map (fun r =>
    { id := r.id, stockCode := r.stockCode, stockName := r.stockName,
      costPrice := r.costPrice, shares := r.shares,
      cachedPrice := priceDb r.stockCode })

/-- The `items` list computed by `updatePortfolioCache`
(src/app/api/position/route.ts lines 28-51): map `cacheItem` over the rows
delivered by `getAllPositionsWithPrices`. -/
def updatePortfolioCacheItems (table : List Position) (priceDb : String → Option ℚ) :
    List PortfolioItem :=
  (getAllPositionsWithPrices table priceDb).map cacheItem

/-! ### Summary fold lemmas -/

theorem foldl_sumStep_totalCost (items : List PortfolioItem) (acc : PortfolioSummary) :
    (items.foldl sumStep acc).totalCost =
      acc.totalCost + (items.map PortfolioItem.totalCost).sum := by
  induction items generalizing acc with
  | nil => simp
  | cons hd tl ih =>
    rw [List.foldl_cons, ih]
    simp [sumStep]
    ring

theorem foldl_sumStep_totalMarketValue (items : List PortfolioItem) (acc : PortfolioSummary) :
    (items.foldl sumStep acc).totalMarketValue =
      acc.totalMarketValue + (items.map (fun i => i.marketValue.getD 0)).sum := by
  induction items generalizing acc with
  | nil => simp
  | cons hd tl ih =>
    rw [List.foldl_cons, ih]
    cases hmv : hd.marketValue
    · simp [sumStep, hmv]
    · simp [sumStep, hmv]
      ring

theorem foldl_sumStep_totalProfit (items : List PortfolioItem) (acc : PortfolioSummary) :
    (items.foldl sumStep acc).totalProfit =
      acc.totalProfit + (items.map (fun i => i.profit.getD 0)).sum := by
  induction items generalizing acc with
  | nil => simp
  | cons hd tl ih =>
    rw [List.foldl_cons, ih]
    cases hp : hd.profit
    · simp [sumStep, hp]
    · simp [sumStep, hp]
      ring

theorem foldl_sumStep_totalProfitPercent (items : List PortfolioItem) (acc : PortfolioSummary) :
    (items.foldl sumStep acc).totalProfitPercent = acc.totalProfitPercent := by
  induction items generalizing acc with
  | nil => rfl
  | cons hd tl ih =>
    rw [List.foldl_cons, ih]
    rfl

/-- C5: for every list of portfolio items, `calculateProfitData` yields
`totalCost` equal to the sum of `item.totalCost` over all items regardless of
price availability, `totalMarketValue` equal to the sum of non-null
`marketValue` (null contributing 0), `totalProfit` likewise, and
`totalProfitPercent = totalProfit / totalCost * 100` when `totalCost > 0` and
`0` otherwise. -/
theorem calculateProfitData_summary_invariant (items : List PortfolioItem) :
    (calculateProfitData items).totalCost = (items.map PortfolioItem.totalCost).sum ∧
    (calculateProfitData items).totalMarketValue =
      (items.map (fun i => i.marketValue.getD 0)).sum ∧
    (calculateProfitData items).totalProfit =
      (items.map (fun i => i.profit.getD 0)).sum ∧
    (calculateProfitData items).totalProfitPercent =
      (if 0 < (items.map PortfolioItem.totalCost).sum then
        (items.map (fun i => i.profit.getD 0)).sum /
          (items.map PortfolioItem.totalCost).sum * 100
      else 0) := by
  have hc := foldl_sumStep_totalCost items ⟨0, 0, 0, 0⟩
  have hmv := foldl_sumStep_totalMarketValue items ⟨0, 0, 0, 0⟩
  have hp := foldl_sumStep_totalProfit items ⟨0, 0, 0, 0⟩
  have hpp := foldl_sumStep_totalProfitPercent items ⟨0, 0, 0, 0⟩
  simp only [zero_add] at hc hmv hp
  simp only [calculateProfitData]
  split
  · next hlt =>
    rw [hc] at hlt
    simp [hlt, hc, hmv, hp]
  · next hlt =>
    rw [hc] at hlt
    simp [hlt, hc, hmv, hp, hpp]

/-- C7: when the portfolio snapshot cache holds no entry (cold start), the
cached-portfolio route yields the empty-but-valid snapshot — `items = []`,
every summary field `0`, `hasPrices = false` — with `success = true`, not an
error. -/
theorem portfolioCacheGet_cold_start :
    portfolioCacheGet none =
      { success := true,
        data := { items := [], summary := ⟨0, 0, 0, 0⟩, hasPrices := false },
        cachedAt := none } := rfl

/-- C10: in both the snapshot item computation and the quick-mode item
computation, whenever `totalCost = costPrice * shares` is not strictly
positive (possible because position saves do not enforce positive cost or
shares), `profitPercent` is `null` rather than the result of dividing by
`totalCost`; a non-null `profitPercent` forces `totalCost > 0`, so the item
computation never divides by zero. -/
theorem profitPercent_no_div_by_zero (p : PositionWithPrice) (position : Position)
    (cached : Option ℚ) :
    (p.costPrice * p.shares ≤ 0 → (cacheItem p).profitPercent = none) ∧
    ((cacheItem p).profitPercent ≠ none → 0 < (cacheItem p).totalCost) ∧
    (position.costPrice * position.shares ≤ 0 →
      (quickItem position cached).profitPercent = none) := by
  refine ⟨?_, ?_, ?_⟩
  · intro h
    cases hp : p.cachedPrice <;> simp [cacheItem, hp, not_lt.mpr h]
  · intro h
    cases hp : p.cachedPrice with
    | none => simp [cacheItem, hp] at h
    | some pr =>
      by_cases hlt : 0 < p.costPrice * p.shares
      · simpa [cacheItem, hp] using hlt
      · simp [cacheItem, hp, hlt] at h
  · intro h
    cases hc : cached with
    | none => simp [quickItem, hc, jsTruthy]
    | some pr =>
      by_cases hz : pr = 0
      · simp [quickItem, hc, hz, jsTruthy]
      · simp [quickItem, hc, hz, jsTruthy, not_lt.mpr h]

/-- Witness for C10 at a concrete input: a position with cost price 0 holds
`totalCost = 0`, and its snapshot item carries a null `profitPercent` even
though a cached price is present. -/
theorem profitPercent_no_div_by_zero_witness :
    (cacheItem { id := "1", stockCode := "sh600519", stockName := "x",
                 costPrice := 0, shares := 5, cachedPrice := some 10 }).profitPercent = none :=
  (profitPercent_no_div_by_zero
    { id := "1", stockCode := "sh600519", stockName := "x",
      costPrice := 0, shares := 5, cachedPrice := some 10 }
    { id := "1", stockCode := "sh600519", stockName := "x",
      costPrice := 0, shares := 5, updatedAt := 0 }
    (some 10)).1 (by norm_num)

/-- C1 is false as stated: in the quick-mode branch of the portfolio route, a
cached price of `0` yields a non-null `currentPrice` while `marketValue`,
`profit` and `profitPercent` are all null, because the source tests the price
with JS truthiness (`cachedPrice ? … : null`) rather than `!== null`. -/
theorem currentPrice_nullability_counterexample :
    (quickItem { id := "1", stockCode := "sh601398", stockName := "x",
                 costPrice := 10, shares := 5, updatedAt := 0 } (some 0)).currentPrice =
        some 0 ∧
    (quickItem { id := "1", stockCode := "sh601398", stockName := "x",
                 costPrice := 10, shares := 5, updatedAt := 0 } (some 0)).marketValue = none ∧
    (quickItem { id := "1", stockCode := "sh601398", stockName := "x",
                 costPrice := 10, shares := 5, updatedAt := 0 } (some 0)).profit = none ∧
    (quickItem { id := "1", stockCode := "sh601398", stockName := "x",
                 costPrice := 10, shares := 5, updatedAt := 0 } (some 0)).profitPercent =
        none := by
  refine ⟨rfl, ?_, ?_, ?_⟩ <;> simp [quickItem, jsTruthy]

/-- C1 (amended): `currentPrice` is null exactly when no cached price exists
for the code at computation time, and a null `currentPrice` propagates as null
`marketValue`, `profit` and `profitPercent` (never coerced to 0).  In the
snapshot computation (`updatePortfolioCache`), a non-null `currentPrice`
yields non-null `marketValue = currentPrice * shares` and
`profit = marketValue - totalCost`, while `profitPercent` is non-null only
when additionally `totalCost > 0`.  In the quick-mode portfolio route, the
same holds except that a cached price equal to `0` (non-null `currentPrice`)
also yields null `marketValue`, `profit` and `profitPercent`, due to the
truthiness test. -/
theorem currentPrice_nullability (p : PositionWithPrice) (position : Position)
    (cached : Option ℚ) :
    ((cacheItem p).currentPrice = p.cachedPrice) ∧
    (p.cachedPrice = none →
      (cacheItem p).marketValue = none ∧ (cacheItem p).profit = none ∧
      (cacheItem p).profitPercent = none) ∧
    (∀ pr : ℚ, p.cachedPrice = some pr →
      (cacheItem p).marketValue = some (pr * p.shares) ∧
      (cacheItem p).profit = some (pr * p.shares - p.costPrice * p.shares) ∧
      (cacheItem p).profitPercent =
        (if 0 < p.costPrice * p.shares then
          some ((pr * p.shares - p.costPrice * p.shares) / (p.costPrice * p.shares) * 100)
        else none)) ∧
    ((quickItem position cached).currentPrice = cached) ∧
    (cached = none ∨ cached = some 0 →
      (quickItem position cached).marketValue = none ∧
      (quickItem position cached).profit = none ∧
      (quickItem position cached).profitPercent = none) ∧
    (∀ pr : ℚ, cached = some pr → pr ≠ 0 →
      (quickItem position cached).marketValue = some (pr * position.shares) ∧
      (quickItem position cached).profit =
        some (pr * position.shares - position.costPrice * position.shares) ∧
      (quickItem position cached).profitPercent =
        (if 0 < position.costPrice * position.shares then
          some ((pr * position.shares - position.costPrice * position.shares) /
            (position.costPrice * position.shares) * 100)
        else none)) := by
  refine ⟨rfl, ?_, ?_, rfl, ?_, ?_⟩
  · intro h
    simp [cacheItem, h]
  · intro pr h
    refine ⟨?_, ?_, ?_⟩ <;> simp [cacheItem, h]
  · rintro (h | h) <;> simp [quickItem, h, jsTruthy]
  · intro pr h hz
    refine ⟨?_, ?_, ?_⟩ <;> simp [quickItem, h, hz, jsTruthy]

/-- Witness for C1 at a concrete input: a cached price of 2 with cost price 1
and 5 shares yields non-null derived fields with the stated formulas. -/
theorem currentPrice_nullability_witness :
    (cacheItem { id := "1", stockCode := "sh601398", stockName := "x",
                 costPrice := 1, shares := 5, cachedPrice := some 2 }).marketValue =
        some ((2 : ℚ) * 5) ∧
    (quickItem { id := "1", stockCode := "sh601398", stockName := "x",
                 costPrice := 1, shares := 5, updatedAt := 0 } (some 2)).profit =
        some ((2 : ℚ) * 5 - 1 * 5) := by
  have h := currentPrice_nullability
    { id := "1", stockCode := "sh601398", stockName := "x",
      costPrice := 1, shares := 5, cachedPrice := some 2 }
    { id := "1", stockCode := "sh601398", stockName := "x",
      costPrice := 1, shares := 5, updatedAt := 0 }
    (some 2)
  exact ⟨(h.2.2.1 2 rfl).1, (h.2.2.2.2.2 2 rfl (by norm_num)).2.1⟩

theorem eligiblePred_iff (forceUpdate : Bool) (typeFilter : Option String)
    (dayOfWeek hours minutes : Nat) (code : String) (hday : dayOfWeek ≤ 6) :
    eligiblePred forceUpdate typeFilter (isStockTradingTime dayOfWeek hours minutes)
        (shouldUpdateFundPrice hours) code = true ↔
      ¬(typeFilter = some "stock" ∧ isFundCode code = true) ∧
      ¬(typeFilter = some "fund" ∧ isFundCode code = false) ∧
      (forceUpdate = true ∨
        (isFundCode code = true ∧ 20 ≤ hours ∧ hours ≤ 23) ∨
        (isFundCode code = false ∧ (1 ≤ dayOfWeek ∧ dayOfWeek ≤ 5) ∧
          ((570 ≤ hours * 60 + minutes ∧ hours * 60 + minutes ≤ 690) ∨
           (780 ≤ hours * 60 + minutes ∧ hours * 60 + minutes ≤ 900)))) := by
  simp only [eligiblePred, isStockTradingTime, shouldUpdateFundPrice]
  cases hf : isFundCode code <;>
    by_cases h1 : typeFilter = some "stock" <;>
      by_cases h2 : typeFilter = some "fund" <;>
        cases forceUpdate <;>
          simp_all <;>
            omega

/-- C2: a tracked code enters `codesToUpdate` iff it survives the type filter
and — with `forceUpdate` false — its per-type time window holds on the Beijing
wall clock: for an equity (non-fund) code, the weekday is Monday through
Friday (JS `getDay()` in 1..5) and the minute-of-day lies in 09:30-11:30 or
13:00-15:00, both endpoints inclusive at minute granularity; for a fund code,
the hour-of-day lies in [20, 23]; with `forceUpdate` true, every code that
passed the type filter is selected regardless of the clock. -/
theorem refresh_eligibility (allCodes : List String) (code : String) (forceUpdate : Bool)
    (typeFilter : Option String) (dayOfWeek hours minutes : Nat) (hday : dayOfWeek ≤ 6) :
    code ∈ selectCodesToUpdate allCodes forceUpdate typeFilter
        (isStockTradingTime dayOfWeek hours minutes) (shouldUpdateFundPrice hours) ↔
      code ∈ allCodes ∧
      ¬(typeFilter = some "stock" ∧ isFundCode code = true) ∧
      ¬(typeFilter = some "fund" ∧ isFundCode code = false) ∧
      (forceUpdate = true ∨
        (isFundCode code = true ∧ 20 ≤ hours ∧ hours ≤ 23) ∨
        (isFundCode code = false ∧ (1 ≤ dayOfWeek ∧ dayOfWeek ≤ 5) ∧
          ((570 ≤ hours * 60 + minutes ∧ hours * 60 + minutes ≤ 690) ∨
           (780 ≤ hours * 60 + minutes ∧ hours * 60 + minutes ≤ 900)))) := by
  rw [selectCodesToUpdate, List.mem_filter,
    eligiblePred_iff forceUpdate typeFilter dayOfWeek hours minutes code hday]

/-- Witness for C2 at a concrete input: on a Tuesday at 10:00 Beijing time,
an equity code is selected without force. -/
theorem refresh_eligibility_witness :
    "sh600519" ∈ selectCodesToUpdate ["sh600519"] false none
      (isStockTradingTime 2 10 0) (shouldUpdateFundPrice 10) :=
  (refresh_eligibility ["sh600519"] "sh600519" false none 2 10 0 (by norm_num)).mpr
    ⟨by simp, by simp, by simp [isFundCode],
      Or.inr (Or.inr ⟨by decide, by norm_num, Or.inl (by norm_num)⟩)⟩

/-! ### Batch-upsert lookup lemmas -/

theorem updateBatch_lookup_not_mem (prices : List (String × ℚ)) (c : String) :
    ∀ cache : String → Option ℚ, c ∉ prices.map Prod.fst →
      updateBatchCachedPrices cache prices c = cache c := by
  induction prices with
  | nil =>
    intro cache _
    rfl
  | cons hd tl ih =>
    intro cache h
    simp only [List.map_cons, List.mem_cons, not_or] at h
    have step := ih (fun x => if x = hd.1 then some hd.2 else cache x) h.2
    simpa [updateBatchCachedPrices, List.foldl_cons, h.1] using step

theorem updateBatch_lookup_mem (prices : List (String × ℚ)) (c : String) (p : ℚ) :
    ∀ cache : String → Option ℚ, (prices.map Prod.fst).Nodup → (c, p) ∈ prices →
      updateBatchCachedPrices cache prices c = some p := by
  induction prices with
  | nil =>
    intro cache _ h
    cases h
  | cons hd tl ih =>
    intro cache hnd hmem
    simp only [List.map_cons, List.nodup_cons] at hnd
    rcases List.mem_cons.mp hmem with heq | hmem'
    · subst heq
      have step := updateBatch_lookup_not_mem tl c
        (fun x => if x = (c, p).1 then some (c, p).2 else cache x) hnd.1
      simpa [updateBatchCachedPrices, List.foldl_cons] using step
    · have step := ih (fun x => if x = hd.1 then some hd.2 else cache x) hnd.2 hmem'
      simpa [updateBatchCachedPrices, List.foldl_cons] using step

theorem validPrices_keys (el : List String) (f : String → Option ℚ) :
    (validPricesOf (fetchResults el f)).map Prod.fst =
      el.filter (fun c => (f c).isSome) := by
  induction el with
  | nil => rfl
  | cons hd tl ih =>
    cases hf : f hd <;>
      simp [validPricesOf, fetchResults, List.filterMap_cons, List.filter_cons, hf] <;>
        simpa [validPricesOf, fetchResults] using ih

theorem mem_validPrices (el : List String) (f : String → Option ℚ) (c : String) (p : ℚ)
    (hc : c ∈ el) (hf : f c = some p) :
    (c, p) ∈ validPricesOf (fetchResults el f) := by
  simp only [validPricesOf, fetchResults, List.filterMap_map, List.mem_filterMap]
  exact ⟨c, hc, by simp [hf]⟩

/-- C3: with at least one eligible code, the cron response's `updated` equals
the number of eligible codes whose fetch produced a non-null numeric price and
`failed = |eligible| - updated`; with zero eligible codes (and a nonempty
position list) the route returns the distinct "nothing to do" response, which
carries no `failed` field at all and is therefore distinguishable from a
success whose every eligible fetch failed (`failed` present). -/
theorem cron_refresh_counts (allCodes : List String) (forceUpdate : Bool)
    (typeFilter : Option String) (isTrading shouldUpdateFund : Bool)
    (fetchPrice : String → Option ℚ) (hnd : allCodes.Nodup) :
    (selectCodesToUpdate allCodes forceUpdate typeFilter isTrading shouldUpdateFund ≠ [] →
      (cronGet allCodes forceUpdate typeFilter isTrading shouldUpdateFund fetchPrice).updated =
        ((selectCodesToUpdate allCodes forceUpdate typeFilter isTrading
            shouldUpdateFund).filter (fun c => (fetchPrice c).isSome)).length ∧
      (cronGet allCodes forceUpdate typeFilter isTrading shouldUpdateFund fetchPrice).failed =
        some ((selectCodesToUpdate allCodes forceUpdate typeFilter isTrading
            shouldUpdateFund).length -
          ((selectCodesToUpdate allCodes forceUpdate typeFilter isTrading
              shouldUpdateFund).filter (fun c => (fetchPrice c).isSome)).length)) ∧
    (allCodes ≠ [] →
      selectCodesToUpdate allCodes forceUpdate typeFilter isTrading shouldUpdateFund = [] →
      cronGet allCodes forceUpdate typeFilter isTrading shouldUpdateFund fetchPrice =
        { success := true, message := "当前时间无需更新价格", updated := 0, failed := none }) ∧
    (selectCodesToUpdate allCodes forceUpdate typeFilter isTrading shouldUpdateFund ≠ [] →
      (cronGet allCodes forceUpdate typeFilter isTrading shouldUpdateFund
          fetchPrice).failed ≠ none) := by
  have hkeys := validPrices_keys
    (selectCodesToUpdate allCodes forceUpdate typeFilter isTrading shouldUpdateFund) fetchPrice
  have hsel : (selectCodesToUpdate allCodes forceUpdate typeFilter isTrading
      shouldUpdateFund).Nodup := hnd.filter _
  have hfnd : ((validPricesOf (fetchResults
      (selectCodesToUpdate allCodes forceUpdate typeFilter isTrading shouldUpdateFund)
      fetchPrice)).map Prod.fst).Nodup := by
    rw [hkeys]
    exact hsel.filter _
  have hded : ((validPricesOf (fetchResults
      (selectCodesToUpdate allCodes forceUpdate typeFilter isTrading shouldUpdateFund)
      fetchPrice)).map Prod.fst).dedup =
      (selectCodesToUpdate allCodes forceUpdate typeFilter isTrading
        shouldUpdateFund).filter (fun c => (fetchPrice c).isSome) := by
    rw [List.dedup_eq_self.mpr hfnd, hkeys]
  refine ⟨?_, ?_, ?_⟩
  · intro hne
    have hall : allCodes ≠ [] := by
      intro h
      exact hne (by simp [selectCodesToUpdate, h])
    simp [cronGet, List.isEmpty_iff, hall, hne, hded]
  · intro hall hsel0
    simp [cronGet, List.isEmpty_iff, hall, hsel0]
  · intro hne
    have hall : allCodes ≠ [] := by
      intro h
      exact hne (by simp [selectCodesToUpdate, h])
    simp [cronGet, List.isEmpty_iff, hall, hne]

/-- Witness for C3 at a concrete input: two distinct forced codes, one fetch
succeeding and one failing, give `updated = 1` and `failed = 1`. -/
theorem cron_refresh_counts_witness :
    (cronGet ["600519", "sh600519"] true none false false
        (fun c => if c = "600519" then some 1 else none)).updated = 1 ∧
    (cronGet ["600519", "sh600519"] true none false false
        (fun c => if c = "600519" then some 1 else none)).failed = some 1 := by
  have h := (cron_refresh_counts ["600519", "sh600519"] true none false false
    (fun c => if c = "600519" then some 1 else none) (by decide)).1 (by decide)
  constructor
  · rw [h.1]
    rfl
  · rw [h.2]
    rfl

/-- C4: an adapter failure for one code in a refresh cycle is a soft failure
for that code only — every eligible code is fetched exactly once (no retry),
a failed code leaves its durable cache entry exactly as it was (present or
absent), each successful code's price is written regardless of sibling
failures (no roll-back, no blocking), and codes outside the eligible set are
untouched. -/
theorem refresh_soft_failure (codesToUpdate : List String) (fetchPrice : String → Option ℚ)
    (cache : String → Option ℚ) (c : String) (hnd : codesToUpdate.Nodup) :
    (c ∈ codesToUpdate → fetchPrice c = none →
      refreshCacheEffect codesToUpdate fetchPrice cache c = cache c) ∧
    (∀ p : ℚ, c ∈ codesToUpdate → fetchPrice c = some p →
      refreshCacheEffect codesToUpdate fetchPrice cache c = some p) ∧
    (c ∉ codesToUpdate → refreshCacheEffect codesToUpdate fetchPrice cache c = cache c) ∧
    (c ∈ codesToUpdate →
      (fetchResults codesToUpdate fetchPrice).countP (fun r => r.1 == c) = 1) := by
  have hkeys := validPrices_keys codesToUpdate fetchPrice
  refine ⟨?_, ?_, ?_, ?_⟩
  · intro _ hf
    apply updateBatch_lookup_not_mem
    rw [hkeys]
    simp [List.mem_filter, hf]
  · intro p hc hf
    apply updateBatch_lookup_mem
    · rw [hkeys]
      exact hnd.filter _
    · exact mem_validPrices codesToUpdate fetchPrice c p hc hf
  · intro hc
    apply updateBatch_lookup_not_mem
    rw [hkeys]
    simp [List.mem_filter]
    intro h
    exact absurd h hc
  · intro hc
    rw [fetchResults, List.countP_map]
    have : ((fun r : String × Option ℚ => r.1 == c) ∘ fun code => (code, fetchPrice code)) =
        (fun code => code == c) := rfl
    rw [this]
    simpa [List.count] using List.count_eq_one_of_mem hnd hc

/-- Witness for C4 at a concrete input: of two eligible codes where the fetch
fails for one, the success is written, the failure leaves that code's entry
unchanged, and both codes are fetched exactly once. -/
theorem refresh_soft_failure_witness :
    refreshCacheEffect ["600519", "sh600519"]
        (fun c => if c = "600519" then some 3 else none) (fun _ => some 7) "600519" = some 3 ∧
    refreshCacheEffect ["600519", "sh600519"]
        (fun c => if c = "600519" then some 3 else none) (fun _ => some 7) "sh600519" =
      some 7 := by
  have h1 := refresh_soft_failure ["600519", "sh600519"]
    (fun c => if c = "600519" then some 3 else none) (fun _ => some 7) "600519" (by decide)
  have h2 := refresh_soft_failure ["600519", "sh600519"]
    (fun c => if c = "600519" then some 3 else none) (fun _ => some 7) "sh600519" (by decide)
  exact ⟨h1.2.1 3 (by decide) (by simp), h2.1 (by decide) (by simp)⟩

/-- C6 is false as stated: a save request with a negative `costPrice` and
zero `shares` (stock code and name present) is not rejected — the route
answers 200 and the position is written. -/
theorem post_validation_counterexample :
    (postPosition [] { stockCode := some "600519", stockName := some "test",
                       costPrice := -1, shares := 0 } 5 "id1").1 = 200 ∧
    (postPosition [] { stockCode := some "600519", stockName := some "test",
                       costPrice := -1, shares := 0 } 5 "id1").2 =
      [{ id := "id1", stockCode := "600519", stockName := "test",
         costPrice := -1, shares := 0, updatedAt := 5 }] := by
  constructor <;> rfl

/-- C6 (amended): a position-save request is rejected with a bad-request
response, before any write and leaving the position store unchanged, exactly
when `stockCode` or `stockName` is missing or empty; `costPrice` and `shares`
are not validated at all — non-positive values are accepted and written. -/
theorem post_validation (store : List Position) (body : PositionSaveBody) (now : Nat)
    (newId : String) :
    ((postPosition store body now newId).1 = 400 ↔
      (jsFalsyStr body.stockCode || jsFalsyStr body.stockName) = true) ∧
    ((jsFalsyStr body.stockCode || jsFalsyStr body.stockName) = true →
      postPosition store body now newId = (400, store)) := by
  unfold postPosition
  by_cases h : (jsFalsyStr body.stockCode || jsFalsyStr body.stockName) = true <;>
    simp [h]

/-- Witness for C6 at a concrete input: a body with no stock code is rejected
with status 400 and the store is untouched. -/
theorem post_validation_witness :
    postPosition [] { stockCode := none, stockName := some "x",
                      costPrice := 1, shares := 1 } 0 "i" = (400, []) :=
  (post_validation [] { stockCode := none, stockName := some "x",
                        costPrice := 1, shares := 1 } 0 "i").2 rfl

/-- C8 is false as stated for the ephemeral in-memory tier: batch lookup on an
empty memory cache returns the requested code as a present, null-valued
entry rather than omitting it. -/
theorem batch_lookup_counterexample :
    getCachedPrice (fun _ => none) 0 "600519" = none ∧
    ("600519", (none : Option ℚ)) ∈ getBatchCachedPrices (fun _ => none) 0 ["600519"] := by
  constructor
  · rfl
  · simp [getBatchCachedPrices]
    rfl

/-- C8 (amended): the durable tier's batch lookup contains an entry for a code
iff the code was requested and `price_cache` holds a row for it — codes with
no entry are simply absent, and every present entry carries an actual price;
the in-memory tier's batch lookup instead returns an entry for every
requested code, whose value is the (possibly null) result of the TTL-checked
single lookup. -/
theorem batch_lookup_membership (priceDb : String → Option ℚ) (codes : List String)
    (memCache : String → Option MemCachedPrice) (now : Int) (c : String) :
    (∀ p : ℚ, (c, p) ∈ getBatchCachedPricesFromDb priceDb codes ↔
      c ∈ codes ∧ priceDb c = some p) ∧
    (∀ v : Option ℚ, (c, v) ∈ getBatchCachedPrices memCache now codes ↔
      c ∈ codes ∧ v = getCachedPrice memCache now c) := by
  constructor
  · intro p
    simp only [getBatchCachedPricesFromDb, List.mem_filterMap, Option.map_eq_some']
    constructor
    · rintro ⟨a, ha, q, hq, heq⟩
      rw [Prod.mk.injEq] at heq
      obtain ⟨rfl, rfl⟩ := heq
      exact ⟨ha, hq⟩
    · rintro ⟨hc, hp⟩
      exact ⟨c, hc, p, hp, rfl⟩
  · intro v
    simp only [getBatchCachedPrices, List.mem_map, Prod.mk.injEq]
    constructor
    · rintro ⟨a, ha, rfl, rfl⟩
      exact ⟨ha, rfl⟩
    · rintro ⟨hc, rfl⟩
      exact ⟨c, hc, rfl, rfl⟩

/-- C9 is false as stated: the snapshot computation reads positions through
the join query `getAllPositionsWithPrices`, which has no ORDER BY clause, so
with a table whose second row is the most recently touched, the items come out
in table order, not most-recently-touched first. -/
theorem snapshot_ordering_counterexample :
    (updatePortfolioCacheItems
        [{ id := "1", stockCode := "sh600519", stockName := "a",
           costPrice := 1, shares := 1, updatedAt := 1 },
         { id := "2", stockCode := "000001", stockName := "b",
           costPrice := 1, shares := 1, updatedAt := 2 }]
        (fun _ => none)).map PortfolioItem.code ≠
      (getAllPositions
        [{ id := "1", stockCode := "sh600519", stockName := "a",
           costPrice := 1, shares := 1, updatedAt := 1 },
         { id := "2", stockCode := "000001", stockName := "b",
           costPrice := 1, shares := 1, updatedAt := 2 }]).map Position.stockCode := by
  decide

/-- C9 (amended): the aggregation performs no re-sorting — the items list is
in one-to-one order-preserving correspondence with the rows delivered by
`getAllPositionsWithPrices`, which themselves follow the positions table
order; the most-recently-touched-first (descending `updatedAt`) order is what
`getAllPositions` delivers, but the snapshot's join query carries no ORDER BY,
so the snapshot items are not guaranteed to be in that order. -/
theorem snapshot_ordering (table : List Position) (priceDb : String → Option ℚ) :
    (updatePortfolioCacheItems table priceDb).map PortfolioItem.code =
      (getAllPositionsWithPrices table priceDb).map PositionWithPrice.stockCode ∧
    (getAllPositionsWithPrices table priceDb).map PositionWithPrice.stockCode =
      table.map Position.stockCode ∧
    List.Sorted (fun a b : Nat => b ≤ a)
      ((getAllPositions table).map Position.updatedAt) := by
  refine ⟨?_, ?_, ?_⟩
  · simp [updatePortfolioCacheItems, List.map_map, Function.comp, cacheItem]
  · simp [getAllPositionsWithPrices, List.map_map, Function.comp]
  · haveI htot : IsTotal Position (fun a b => b.updatedAt ≤ a.updatedAt) :=
      ⟨fun a b => le_total b.updatedAt a.updatedAt⟩
    haveI htrans : IsTrans Position (fun a b => b.updatedAt ≤ a.updatedAt) :=
      ⟨fun _ _ _ hab hbc => le_trans hbc hab⟩
    have hs := List.sorted_insertionSort (fun a b : Position => b.updatedAt ≤ a.updatedAt) table
    exact List.Pairwise.map _ (fun _ _ hab => hab) hs

end StockProfit
